import Mathlib

/- Formal model of the availability-slicing and timezone-offset utilities of
the booking page (src/lib/utils/availability.ts and src/lib/utils/timezone.ts).

Instants are modelled as integer milliseconds since the Unix epoch, as in
JavaScript. The host environment timezone (used by the JS local-time getters
and setters behind date-fns and by date-fns format) is modelled as a fixed
UTC offset tz in whole minutes, so the local wall-clock milliseconds of an
instant t are t + tz * 60000. Division / and remainder % on Int are euclidean
here, which is exactly the calendar-field semantics of the JS Date getters,
also before the epoch. -/

namespace Booking

/-- One raw availability window as fetched from the API: a pair of ISO-8601
timestamp strings (interface AvailabilitySlot in availability.ts). -/
structure AvailabilitySlot where
  start : String
  «end» : String
deriving DecidableEq

/-- One generated 30-minute slot (interface TimeSlot in availability.ts);
start and end are instants (JS Date values) in epoch milliseconds. -/
structure TimeSlot where
  start : Int
  «end» : Int
deriving DecidableEq

/-- Local wall-clock milliseconds of instant t in a host timezone at fixed
offset tz minutes east of UTC. -/
def localMs (tz t : Int) : Int := t + tz * 60000

/-- JS Date.prototype.getMinutes: the local minute-of-hour field. -/
def getMinutes (tz t : Int) : Int := localMs tz t / 60000 % 60

/-- JS Date.prototype.getSeconds: the local second-of-minute field. -/
def getSeconds (tz t : Int) : Int := localMs tz t / 1000 % 60

/-- JS Date.prototype.getHours: the local hour-of-day field. -/
def getHours (tz t : Int) : Int := localMs tz t / 3600000 % 24

/-- date-fns setMinutes: set the local minute field, keeping seconds and
milliseconds (out-of-range values roll over, as with the native setter). -/
def setMinutes (tz t m : Int) : Int := t + (m - getMinutes tz t) * 60000

/-- date-fns setSeconds: set the local second field, keeping milliseconds. -/
def setSeconds (tz t s : Int) : Int := t + (s - getSeconds tz t) * 1000

/-- date-fns setHours: set the local hour field (rolls over at 24 into the
next day, as with the native setter). -/
def setHours (tz t h : Int) : Int := t + (h - getHours tz t) * 3600000

/-- date-fns addMinutes. -/
def addMinutes (t m : Int) : Int := t + m * 60000

/-- Gregorian day number (days since 1970-01-01) to (year, month, day);
the standard civil-calendar conversion performed by the JS engine when
formatting a Date. -/
def civilFromDays (z0 : Int) : Int × Int × Int :=
  let z := z0 + 719468
  let era := z / 146097
  let doe := z - era * 146097
  let yoe := (doe - doe / 1460 + doe / 36524 - doe / 146096) / 365
  let y := yoe + era * 400
  let doy := doe - (365 * yoe + yoe / 4 - yoe / 100)
  let mp := (5 * doy + 2) / 153
  let d := doy - (153 * mp + 2) / 5 + 1
  let m := mp + (if mp < 10 then 3 else -9)
  (if m ≤ 2 then y + 1 else y, m, d)

/-- Gregorian (year, month, day) to day number (days since 1970-01-01); the
conversion performed by the JS engine when parsing a Date. -/
def daysFromCivil (y m d : Int) : Int :=
  let y2 := if m ≤ 2 then y - 1 else y
  let era := y2 / 400
  let yoe := y2 - era * 400
  let mp := (m + 9) % 12
  let doy := (153 * mp + 2) / 5 + d - 1
  let doe := yoe * 365 + yoe / 4 - yoe / 100 + doy
  era * 146097 + doe - 719468

/-- Left-pad a decimal rendering with zeroes to a given width. -/
def padZeroes (w : Nat) (s : String) : String :=
  String.mk (List.replicate (w - s.length) '0') ++ s

/-- date-fns format(date, "yyyy-MM-dd") in the host timezone tz. -/
def formatYMD (tz t : Int) : String :=
  match civilFromDays (localMs tz t / 86400000) with
  | (y, m, d) =>
      padZeroes 4 (toString y) ++ "-" ++ padZeroes 2 (toString m) ++ "-" ++
        padZeroes 2 (toString d)

/-- Numeric value of a decimal digit character, or none. -/
def digitVal (c : Char) : Option Nat :=
  if c.isDigit then some (c.toNat - 48) else none

/-- Two decimal digit characters as a number. -/
def twoDigits (a b : Char) : Option Nat := do
  let x ← digitVal a
  let y ← digitVal b
  pure (10 * x + y)

/-- Four decimal digit characters as a number. -/
def fourDigits (a b c d : Char) : Option Nat := do
  let x ← twoDigits a b
  let y ← twoDigits c d
  pure (100 * x + y)

/-- Parse the timezone suffix of an ISO-8601 timestamp: empty (host local
time), Z (UTC), or a sign and HH:MM. Returns the explicit offset in minutes
east of UTC (none when the string carries no suffix), rejecting anything
else, as new Date rejects malformed ISO strings. -/
def parseZoneTail : List Char → Option (Option Int)
  | [] => some none
  | [ 'Z'] => some (some 0)
  | [sg, o1, o2, ':', o3, o4] => do
      let hh ← twoDigits o1 o2
      let mm ← twoDigits o3 o4
      if (sg = '+' ∨ sg = '-') ∧ mm ≤ 59 then
        pure (some ((if sg = '-' then -1 else 1) * (60 * (hh : Int) + (mm : Int))))
      else none
  | _ => none

/-- Parse the part after the seconds field: an optional .mmm fraction, then
the zone suffix. -/
def parseFractionZone : List Char → Option (Nat × Option Int)
  | '.' :: f1 :: f2 :: f3 :: rest => do
      let a ← digitVal f1
      let b ← digitVal f2
      let c ← digitVal f3
      let off ← parseZoneTail rest
      pure (100 * a + 10 * b + c, off)
  | rest => do
      let off ← parseZoneTail rest
      pure (0, off)

/-- Parse a well-formed ISO-8601 date-time character sequence, as accepted by
new Date: yields the wall-clock milliseconds of the written fields and the
explicit offset in minutes when one is present. -/
def parseISOChars : List Char → Option (Int × Option Int)
  | y1 :: y2 :: y3 :: y4 :: '-' :: a1 :: a2 :: '-' :: b1 :: b2 :: 'T' ::
      h1 :: h2 :: ':' :: i1 :: i2 :: ':' :: s1 :: s2 :: rest => do
      let y ← fourDigits y1 y2 y3 y4
      let mo ← twoDigits a1 a2
      let dy ← twoDigits b1 b2
      let hh ← twoDigits h1 h2
      let mi ← twoDigits i1 i2
      let ss ← twoDigits s1 s2
      let fz ← parseFractionZone rest
      if 1 ≤ mo ∧ mo ≤ 12 ∧ 1 ≤ dy ∧ dy ≤ 31 ∧ hh ≤ 23 ∧ mi ≤ 59 ∧ ss ≤ 59 then
        pure (daysFromCivil y mo dy * 86400000 + (hh : Int) * 3600000 +
          (mi : Int) * 60000 + (ss : Int) * 1000 + (fz.1 : Int), fz.2)
      else none
  | _ => none

/-- Parse a well-formed ISO-8601 timestamp string. -/
def parseISO (s : String) : Option (Int × Option Int) := parseISOChars s.data

/-- new Date(s) in host timezone tz: the instant in epoch milliseconds, or
none for a string new Date maps to Invalid Date. A string without zone
suffix is interpreted as host local time, as new Date does for ISO
date-time strings. -/
def jsDate (tz : Int) (s : String) : Option Int :=
  match parseISO s with
  | some (wall, some off) => some (wall - off * 60000)
  | some (wall, none) => some (wall - tz * 60000)
  | none => none

/-- The loop body of getDatesWithAvailability: dates.add(format(date, ...)),
with the JS Set modelled as the insertion-ordered duplicate-free list its
iteration yields. A window whose start does not parse is skipped (the source
would throw inside date-fns format there; the spec declares malformed
timestamps undefined behaviour at the caller boundary). -/
def addDateKey (tz : Int) (dates : List String) (slot : AvailabilitySlot) : List String :=
  match jsDate tz slot.start with
  | some date =>
      let k := formatYMD tz date
      if dates.contains k then dates else dates ++ [k]
  | none => dates

/-- getDatesWithAvailability (availability.ts): the Set of yyyy-MM-dd keys of
the window start instants, formatted in the host timezone tz. -/
def getDatesWithAvailability (tz : Int) (availability : List AvailabilitySlot) : List String :=
  availability.foldl (addDateKey tz) []

/-- roundToNearestSlotBoundary (availability.ts). -/
def roundToNearestSlotBoundary (tz date : Int) : Int :=
  let minutes := getMinutes tz date
  if 0 < minutes ∧ minutes < 30 then
    setSeconds tz (setMinutes tz date 30) 0
  else if 30 < minutes then
    setSeconds tz (setMinutes tz (setHours tz date (getHours tz date + 1)) 0) 0
  else
    setSeconds tz date 0

/-- The while loop of generateThirtyMinuteSlots: from currentTime, emit
[current, current + 30min) as long as current < endTime, where the push is
guarded by !isBefore(endTime, slotEnd), so a final partial slot is skipped
while currentTime still advances by 30 minutes each iteration. -/
def slotLoop (endTime currentTime : Int) : List TimeSlot :=
  if h : currentTime < endTime then
    let slotEnd := addMinutes currentTime 30
    (if ¬ endTime < slotEnd then [⟨currentTime, slotEnd⟩] else []) ++ slotLoop endTime slotEnd
  else []
  termination_by (endTime - currentTime).toNat
  decreasing_by simp only [addMinutes]; omega

/-- The body of the for-loop of generateThirtyMinuteSlots for one block: parse
both ends, round the start up to a slot boundary and enumerate. An
unparseable end gives NaN in JS, so the loop comparison is false and no slot
is produced. -/
def blockSlots (tz : Int) (block : AvailabilitySlot) : List TimeSlot :=
  match jsDate tz block.start, jsDate tz block.«end» with
  | some startTime, some endTime => slotLoop endTime (roundToNearestSlotBoundary tz startTime)
  | _, _ => []

/-- generateThirtyMinuteSlots (availability.ts) in host timezone tz. -/
def generateThirtyMinuteSlots (tz : Int) (availability : List AvailabilitySlot)
    (selectedDate : String) : List TimeSlot :=
  if selectedDate = "" then []
  else
    (availability.filter fun slot =>
      match jsDate tz slot.start with
      | some d => formatYMD tz d == selectedDate
      | none => false).foldl (fun acc block => acc ++ blockSlots tz block) []

/-- JS String.prototype.endsWith: suffix test on the character sequence. -/
def jsEndsWith (s t : String) : Bool := List.isPrefixOf t.data.reverse s.data.reverse

/-- The anchored regular expression ([+-]dd):(dd)$ shared (up to grouping) by
parseOffsetFromTimestamp and getTimezoneFromOffset: matches when the last six
characters are a sign, two digits, a colon and two digits, yielding
(sign, h1, h2, m1, m2). -/
def offsetTailMatch (s : String) : Option (Char × Char × Char × Char × Char) :=
  match s.data.reverse with
  | m2 :: m1 :: colon :: h2 :: h1 :: sg :: _ =>
      if colon = ':' ∧ (sg = '+' ∨ sg = '-') ∧
          h1.isDigit ∧ h2.isDigit ∧ m1.isDigit ∧ m2.isDigit then
        some (sg, h1, h2, m1, m2)
      else none
  | _ => none

/-- parseOffsetFromTimestamp (timezone.ts); parseInt on the signed two-digit
capture is modelled by the signed digit value. -/
def parseOffsetFromTimestamp (timestamp : String) : String :=
  if jsEndsWith timestamp "Z" then "UTC+0"
  else
    match offsetTailMatch timestamp with
    | some (sg, h1, h2, m1, m2) =>
        let hours : Int :=
          (if sg = '-' then -1 else 1) * (10 * ((h1.toNat : Int) - 48) + ((h2.toNat : Int) - 48))
        if m1 = '0' ∧ m2 = '0' then
          "UTC" ++ (if 0 ≤ hours then "+" else "") ++ toString hours
        else
          "UTC" ++ String.mk [sg, h1, h2] ++ ":" ++ String.mk [m1, m2]
    | none => "UTC+0"

/-- shouldShowTimezoneSelector (timezone.ts). -/
def shouldShowTimezoneSelector (userTimestamp orgTimestamp : String) : Bool :=
  parseOffsetFromTimestamp userTimestamp != parseOffsetFromTimestamp orgTimestamp

/-- getTimezoneFromOffset (timezone.ts); the fallback argument defaults to
"UTC" as in the source. -/
def getTimezoneFromOffset (timestamp : String) (fallbackTimezone : String := "UTC") : String :=
  if jsEndsWith timestamp "Z" then "UTC"
  else
    match offsetTailMatch timestamp with
    | none => "UTC"
    | some (sg, h1, h2, m1, m2) =>
        let hours : Nat := 10 * (h1.toNat - 48) + (h2.toNat - 48)
        let invertedSign := if sg = '+' then "-" else "+"
        if m1 = '0' ∧ m2 = '0' then
          "Etc/GMT" ++ invertedSign ++ toString hours
        else
          fallbackTimezone

/-- Absolute local hour index (hours since the epoch in the host timezone);
used to state that rounding keeps the hour or advances to the next one. -/
def localHourIndex (tz t : Int) : Int := localMs tz t / 3600000

/-- The yyyy-MM-dd key written in the timestamp string itself, i.e. the
wall-clock date at the offset embedded in the string (the reading of the
date-bucketing guarantee under examination). -/
def embeddedDateKey (s : String) : Option String :=
  match parseISO s with
  | some (wall, _) => some (formatYMD 0 wall)
  | none => none

/-- The six-character ±HH:MM shape matched by the offset regexes, rendered
from a sign and numeric hour and minute fields; used to quantify over all
timestamps carrying an explicit offset suffix. -/
def offsetSuffix (pos : Bool) (hh mm : Nat) : String :=
  String.mk [if pos then '+' else '-', Nat.digitChar (hh / 10), Nat.digitChar (hh % 10),
    ':', Nat.digitChar (mm / 10), Nat.digitChar (mm % 10)]

/-- Every slot emitted by the enumeration loop starts at or after the rounded
start, is exactly 30 minutes wide, ends at or before the window end, and its
start is congruent to the rounded start modulo 30 minutes. Fuel-indexed
auxiliary form for induction. -/
theorem mem_slotLoop_aux : ∀ (n : Nat) (e c : Int), (e - c).toNat ≤ n →
    ∀ s : TimeSlot, s ∈ slotLoop e c →
      c ≤ s.start ∧ s.«end» = s.start + 1800000 ∧ s.«end» ≤ e ∧
        (s.start - c) % 1800000 = 0 := by
  intro n
  induction n with
  | zero =>
      intro e c hn s hs
      rw [slotLoop, dif_neg (by omega)] at hs
      simp at hs
  | succ n ih =>
      intro e c hn s hs
      rw [slotLoop] at hs
      by_cases hce : c < e
      · rw [dif_pos hce] at hs
        simp only [addMinutes, List.mem_append] at hs
        rcases hs with hs | hs
        · by_cases hend : ¬ e < c + 30 * 60000
          · rw [if_pos hend] at hs
            simp only [List.mem_singleton] at hs
            subst hs
            refine ⟨le_refl _, ?_, ?_, ?_⟩ <;> simp only [] <;> omega
          · rw [if_neg hend] at hs
            simp at hs
        · have h := ih e (c + 30 * 60000) (by omega) s hs
          refine ⟨by omega, h.2.1, h.2.2.1, by omega⟩
      · rw [dif_neg hce] at hs
        simp at hs

/-- Wrapper of the loop-membership lemma at the exact measure. -/
theorem mem_slotLoop {e c : Int} {s : TimeSlot} (hs : s ∈ slotLoop e c) :
    c ≤ s.start ∧ s.«end» = s.start + 1800000 ∧ s.«end» ≤ e ∧
      (s.start - c) % 1800000 = 0 :=
  mem_slotLoop_aux (e - c).toNat e c le_rfl s hs

/-- Membership in the concatenating fold of generateThirtyMinuteSlots. -/
theorem mem_foldl_blocks (tz : Int) : ∀ (l : List AvailabilitySlot)
    (acc : List TimeSlot) (s : TimeSlot),
    s ∈ l.foldl (fun acc block => acc ++ blockSlots tz block) acc ↔
      s ∈ acc ∨ ∃ b ∈ l, s ∈ blockSlots tz b := by
  intro l
  induction l with
  | nil => intro acc s; simp
  | cons b l ih =>
      intro acc s
      rw [List.foldl_cons, ih, List.mem_append]
      constructor
      · rintro ((h | h) | ⟨w, hw, hmem⟩)
        · exact Or.inl h
        · exact Or.inr ⟨b, List.mem_cons_self b l, h⟩
        · exact Or.inr ⟨w, List.mem_cons_of_mem b hw, hmem⟩
      · rintro (h | ⟨w, hw, hmem⟩)
        · exact Or.inl (Or.inl h)
        · rcases List.mem_cons.mp hw with rfl | hw
          · exact Or.inl (Or.inr hmem)
          · exact Or.inr ⟨w, hw, hmem⟩

/-- Every slot produced by generateThirtyMinuteSlots comes from some window of
the input list whose two ends parse, via the enumeration loop run from the
rounded start. -/
theorem mem_generate {tz : Int} {av : List AvailabilitySlot} {dk : String}
    {s : TimeSlot} (hs : s ∈ generateThirtyMinuteSlots tz av dk) :
    ∃ w ∈ av, ∃ st en : Int, jsDate tz w.start = some st ∧
      jsDate tz w.«end» = some en ∧
      s ∈ slotLoop en (roundToNearestSlotBoundary tz st) := by
  rw [generateThirtyMinuteSlots] at hs
  split at hs
  · simp at hs
  · rw [mem_foldl_blocks] at hs
    rcases hs with hs | ⟨b, hb, hmem⟩
    · simp at hs
    · refine ⟨b, List.mem_of_mem_filter hb, ?_⟩
      rcases h1 : jsDate tz b.start with _ | st <;>
        rcases h2 : jsDate tz b.«end» with _ | en <;>
          simp only [blockSlots, h1, h2] at hmem <;> try simp at hmem
      exact ⟨st, en, rfl, rfl, hmem⟩

/-- The rounding policy never moves an instant earlier, except in the
boundary-minute branch where it only zeroes the seconds field. -/
theorem round_ge (tz d : Int)
    (h : getSeconds tz d = 0 ∨ (getMinutes tz d ≠ 0 ∧ getMinutes tz d ≠ 30)) :
    d ≤ roundToNearestSlotBoundary tz d := by
  simp only [roundToNearestSlotBoundary, setSeconds, setMinutes, setHours,
    getMinutes, getSeconds, getHours, localMs] at *
  split_ifs <;> omega

/-- The local wall-clock value of a rounded instant sits within the first
second of a half-hour block (its minute field is 0 or 30 and its second
field is 0; only milliseconds survive). -/
theorem round_local_mod (tz d : Int) :
    localMs tz (roundToNearestSlotBoundary tz d) % 1800000 < 1000 := by
  simp only [roundToNearestSlotBoundary, setSeconds, setMinutes, setHours,
    getMinutes, getSeconds, getHours, localMs]
  split_ifs <;> omega

/-- C10: the per-window enumeration of generateThirtyMinuteSlots terminates:
whenever currentTime < endTime, one iteration advances currentTime by exactly
30 minutes (addMinutes currentTime 30), so the natural measure
(endTime - currentTime).toNat strictly decreases, and the loop is a total
function satisfying its one-step unfolding equation. -/
theorem slot_loop_terminates (e c : Int) (h : c < e) :
    (e - addMinutes c 30).toNat < (e - c).toNat ∧
      slotLoop e c =
        (if ¬ e < addMinutes c 30 then [⟨c, addMinutes c 30⟩] else []) ++
          slotLoop e (addMinutes c 30) := by
  refine ⟨by simp only [addMinutes]; omega, ?_⟩
  conv_lhs => rw [slotLoop]
  rw [dif_pos h]

/-- Witness for C10 at a concrete one-iteration loop. -/
theorem slot_loop_terminates_witness :
    ((1800000 : Int) - addMinutes 0 30).toNat < ((1800000 : Int) - 0).toNat ∧
      slotLoop 1800000 0 =
        (if ¬ (1800000 : Int) < addMinutes 0 30 then [⟨0, addMinutes 0 30⟩] else []) ++
          slotLoop 1800000 (addMinutes 0 30) :=
  slot_loop_terminates 1800000 0 (by decide)

/-- C3: roundToNearestSlotBoundary sends a minute field strictly inside
(0, 30) to minute 30 of the same hour with seconds zeroed, a minute field
strictly above 30 to minute 0 of the next hour with seconds zeroed, and a
minute field of exactly 0 or 30 to the same hour and minute with only the
seconds zeroed (the result is the instant minus its seconds). -/
theorem round_boundary_cases (tz d : Int) :
    (0 < getMinutes tz d ∧ getMinutes tz d < 30 →
      localHourIndex tz (roundToNearestSlotBoundary tz d) = localHourIndex tz d ∧
      getMinutes tz (roundToNearestSlotBoundary tz d) = 30 ∧
      getSeconds tz (roundToNearestSlotBoundary tz d) = 0) ∧
    (30 < getMinutes tz d →
      localHourIndex tz (roundToNearestSlotBoundary tz d) = localHourIndex tz d + 1 ∧
      getMinutes tz (roundToNearestSlotBoundary tz d) = 0 ∧
      getSeconds tz (roundToNearestSlotBoundary tz d) = 0) ∧
    ((getMinutes tz d = 0 ∨ getMinutes tz d = 30) →
      roundToNearestSlotBoundary tz d = d - 1000 * getSeconds tz d ∧
      getMinutes tz (roundToNearestSlotBoundary tz d) = getMinutes tz d ∧
      getSeconds tz (roundToNearestSlotBoundary tz d) = 0) := by
  simp only [roundToNearestSlotBoundary, setSeconds, setMinutes, setHours,
    getMinutes, getSeconds, getHours, localMs, localHourIndex]
  split_ifs <;> omega

/-- Witness for C3, covering each of the three branches at a concrete
instant: 00:15:00, 00:45:00 and 00:30:30 on 1970-01-01 in a UTC host. -/
theorem round_boundary_cases_witness :
    (0 < getMinutes 0 900000 ∧ getMinutes 0 900000 < 30) ∧
    (localHourIndex 0 (roundToNearestSlotBoundary 0 900000) = localHourIndex 0 900000 ∧
      getMinutes 0 (roundToNearestSlotBoundary 0 900000) = 30 ∧
      getSeconds 0 (roundToNearestSlotBoundary 0 900000) = 0) ∧
    (localHourIndex 0 (roundToNearestSlotBoundary 0 2700000) = localHourIndex 0 2700000 + 1 ∧
      getMinutes 0 (roundToNearestSlotBoundary 0 2700000) = 0 ∧
      getSeconds 0 (roundToNearestSlotBoundary 0 2700000) = 0) ∧
    (roundToNearestSlotBoundary 0 1830000 = 1830000 - 1000 * getSeconds 0 1830000 ∧
      getMinutes 0 (roundToNearestSlotBoundary 0 1830000) = getMinutes 0 1830000 ∧
      getSeconds 0 (roundToNearestSlotBoundary 0 1830000) = 0) :=
  ⟨by decide, (round_boundary_cases 0 900000).1 (by decide),
    (round_boundary_cases 0 2700000).2.1 (by decide),
    (round_boundary_cases 0 1830000).2.2 (by decide)⟩

/-- Reduction of the concrete spec example (window 09:00Z to 10:15Z on
2025-12-16, UTC host) to its enumeration loop. -/
theorem gen_ex_reduce :
    generateThirtyMinuteSlots 0 [⟨"2025-12-16T09:00:00Z", "2025-12-16T10:15:00Z"⟩]
        "2025-12-16" =
      slotLoop 1765880100000 1765875600000 := by
  have hblock : blockSlots 0 ⟨"2025-12-16T09:00:00Z", "2025-12-16T10:15:00Z"⟩ =
      slotLoop 1765880100000 1765875600000 := rfl
  have hfil : List.filter (fun slot =>
      match jsDate 0 slot.start with
      | some d => formatYMD 0 d == "2025-12-16"
      | none => false) [(⟨"2025-12-16T09:00:00Z", "2025-12-16T10:15:00Z"⟩ : AvailabilitySlot)] =
        [⟨"2025-12-16T09:00:00Z", "2025-12-16T10:15:00Z"⟩] := rfl
  rw [generateThirtyMinuteSlots, if_neg (by decide : ¬ ("2025-12-16" : String) = "")]
  rw [hfil, List.foldl_cons]
  show List.foldl _ ([] ++ blockSlots 0 _) [] = _
  rw [List.foldl_nil, List.nil_append, hblock]

/-- Unrolling of the enumeration loop of the 09:00Z to 10:15Z example: the
candidate third slot 10:00-10:30 is rejected because 10:15 is before its
end, and the loop then stops. -/
theorem gen_ex_loop :
    slotLoop 1765880100000 1765875600000 =
      [⟨1765875600000, 1765877400000⟩, ⟨1765877400000, 1765879200000⟩] := by
  rw [slotLoop]; norm_num [addMinutes]
  rw [slotLoop]; norm_num [addMinutes]
  rw [slotLoop]; norm_num [addMinutes]
  rw [slotLoop]; norm_num [addMinutes]

/-- The spec example: the window 09:00Z to 10:15Z yields exactly the two
slots 09:00-09:30 and 09:30-10:00. -/
theorem gen_ex :
    generateThirtyMinuteSlots 0 [⟨"2025-12-16T09:00:00Z", "2025-12-16T10:15:00Z"⟩]
        "2025-12-16" =
      [⟨1765875600000, 1765877400000⟩, ⟨1765877400000, 1765879200000⟩] :=
  gen_ex_reduce.trans gen_ex_loop

/-- Reduction of the window 09:00:30Z to 10:00Z on 2025-12-16 (UTC host) to
its enumeration loop: the start is rounded down to 09:00:00. -/
theorem gen_ex2_reduce :
    generateThirtyMinuteSlots 0 [⟨"2025-12-16T09:00:30Z", "2025-12-16T10:00:00Z"⟩]
        "2025-12-16" =
      slotLoop 1765879200000 1765875600000 := by
  have hblock : blockSlots 0 ⟨"2025-12-16T09:00:30Z", "2025-12-16T10:00:00Z"⟩ =
      slotLoop 1765879200000 1765875600000 := rfl
  have hfil : List.filter (fun slot =>
      match jsDate 0 slot.start with
      | some d => formatYMD 0 d == "2025-12-16"
      | none => false) [(⟨"2025-12-16T09:00:30Z", "2025-12-16T10:00:00Z"⟩ : AvailabilitySlot)] =
        [⟨"2025-12-16T09:00:30Z", "2025-12-16T10:00:00Z"⟩] := rfl
  rw [generateThirtyMinuteSlots, if_neg (by decide : ¬ ("2025-12-16" : String) = "")]
  rw [hfil, List.foldl_cons]
  show List.foldl _ ([] ++ blockSlots 0 _) [] = _
  rw [List.foldl_nil, List.nil_append, hblock]

/-- Unrolling of the enumeration loop of the 09:00:30Z to 10:00Z example. -/
theorem gen_ex2_loop :
    slotLoop 1765879200000 1765875600000 =
      [⟨1765875600000, 1765877400000⟩, ⟨1765877400000, 1765879200000⟩] := by
  rw [slotLoop]; norm_num [addMinutes]
  rw [slotLoop]; norm_num [addMinutes]
  rw [slotLoop]; norm_num [addMinutes]

/-- The window 09:00:30Z to 10:00Z yields two slots, the first of which
starts at 09:00:00, before the window start 09:00:30. -/
theorem gen_ex2 :
    generateThirtyMinuteSlots 0 [⟨"2025-12-16T09:00:30Z", "2025-12-16T10:00:00Z"⟩]
        "2025-12-16" =
      [⟨1765875600000, 1765877400000⟩, ⟨1765877400000, 1765879200000⟩] :=
  gen_ex2_reduce.trans gen_ex2_loop

/-- C1: for every host offset, windows list and date-key, every slot returned
by generateThirtyMinuteSlots ends at or before the parsed end of the window
it was derived from; and the window 09:00Z to 10:15Z on 2025-12-16 yields
exactly the two slots 09:00-09:30 and 09:30-10:00, with no third partial
slot 10:00-10:15. -/
theorem slots_no_overrun :
    (∀ (tz : Int) (av : List AvailabilitySlot) (dk : String) (s : TimeSlot),
      s ∈ generateThirtyMinuteSlots tz av dk →
        ∃ w ∈ av, ∃ en : Int, jsDate tz w.«end» = some en ∧ s.«end» ≤ en) ∧
    generateThirtyMinuteSlots 0 [⟨"2025-12-16T09:00:00Z", "2025-12-16T10:15:00Z"⟩]
        "2025-12-16" =
      [⟨1765875600000, 1765877400000⟩, ⟨1765877400000, 1765879200000⟩] := by
  refine ⟨?_, gen_ex⟩
  intro tz av dk s hs
  obtain ⟨w, hw, st, en, h1, h2, hmem⟩ := mem_generate hs
  exact ⟨w, hw, en, h2, (mem_slotLoop hmem).2.2.1⟩

/-- Witness for C1 at the first slot of the concrete example. -/
theorem slots_no_overrun_witness :
    ∃ w ∈ [(⟨"2025-12-16T09:00:00Z", "2025-12-16T10:15:00Z"⟩ : AvailabilitySlot)],
      ∃ en : Int, jsDate 0 w.«end» = some en ∧ (1765877400000 : Int) ≤ en :=
  slots_no_overrun.1 0 [⟨"2025-12-16T09:00:00Z", "2025-12-16T10:15:00Z"⟩] "2025-12-16"
    ⟨1765875600000, 1765877400000⟩ (by rw [gen_ex]; exact List.mem_cons_self _ _)

/-- C2 counterexample: rounding is not at-or-after the input on an instant
whose minute is on a boundary but whose seconds are nonzero.
1970-01-01T00:00:30 (UTC host) rounds down to 00:00:00, and the window
09:00:30Z to 10:00Z on 2025-12-16 produces a first slot starting at
09:00:00, strictly before the window start instant 09:00:30. -/
theorem round_never_down_counterexample :
    roundToNearestSlotBoundary 0 30000 < 30000 ∧
    jsDate 0 "2025-12-16T09:00:30Z" = some 1765875630000 ∧
    (generateThirtyMinuteSlots 0 [⟨"2025-12-16T09:00:30Z", "2025-12-16T10:00:00Z"⟩]
        "2025-12-16").head? = some ⟨1765875600000, 1765877400000⟩ ∧
    (1765875600000 : Int) < 1765875630000 := by
  refine ⟨by decide, rfl, ?_, by decide⟩
  rw [gen_ex2]
  rfl

/-- C2 (amended): rounding is at-or-after the input whenever the input's
seconds are zero or its minute is not exactly 0 or 30; consequently every
generated slot starts at or after the rounded window start, and at or after
the window start itself whenever that start satisfies the same condition. -/
theorem round_up_and_slot_lower_bound :
    (∀ tz d : Int,
      getSeconds tz d = 0 ∨ (getMinutes tz d ≠ 0 ∧ getMinutes tz d ≠ 30) →
        d ≤ roundToNearestSlotBoundary tz d) ∧
    (∀ (tz : Int) (av : List AvailabilitySlot) (dk : String) (s : TimeSlot),
      s ∈ generateThirtyMinuteSlots tz av dk →
        ∃ w ∈ av, ∃ st : Int, jsDate tz w.start = some st ∧
          roundToNearestSlotBoundary tz st ≤ s.start ∧
          (getSeconds tz st = 0 ∨ (getMinutes tz st ≠ 0 ∧ getMinutes tz st ≠ 30) →
            st ≤ s.start)) := by
  refine ⟨round_ge, ?_⟩
  intro tz av dk s hs
  obtain ⟨w, hw, st, en, h1, h2, hmem⟩ := mem_generate hs
  have h3 := (mem_slotLoop hmem).1
  exact ⟨w, hw, st, h1, h3, fun hc => le_trans (round_ge tz st hc) h3⟩

/-- Witness for C2 (amended) at the concrete example window. -/
theorem round_up_and_slot_lower_bound_witness :
    ((1765875600000 : Int) ≤ roundToNearestSlotBoundary 0 1765875600000) ∧
    ∃ w ∈ [(⟨"2025-12-16T09:00:00Z", "2025-12-16T10:15:00Z"⟩ : AvailabilitySlot)],
      ∃ st : Int, jsDate 0 w.start = some st ∧
        roundToNearestSlotBoundary 0 st ≤ 1765875600000 ∧
        (getSeconds 0 st = 0 ∨ (getMinutes 0 st ≠ 0 ∧ getMinutes 0 st ≠ 30) →
          st ≤ 1765875600000) :=
  ⟨round_up_and_slot_lower_bound.1 0 1765875600000 (by decide),
    round_up_and_slot_lower_bound.2 0
      [⟨"2025-12-16T09:00:00Z", "2025-12-16T10:15:00Z"⟩] "2025-12-16"
      ⟨1765875600000, 1765877400000⟩ (by rw [gen_ex]; exact List.mem_cons_self _ _)⟩

/-- C4: every slot returned by generateThirtyMinuteSlots is exactly 30
minutes wide and starts on a boundary: its start's local minute field is 0
or 30 and its local second field is 0. -/
theorem slot_width_and_alignment (tz : Int) (av : List AvailabilitySlot) (dk : String)
    (s : TimeSlot) (hs : s ∈ generateThirtyMinuteSlots tz av dk) :
    s.«end» - s.start = 1800000 ∧
    (getMinutes tz s.start = 0 ∨ getMinutes tz s.start = 30) ∧
    getSeconds tz s.start = 0 := by
  obtain ⟨w, hw, st, en, h1, h2, hmem⟩ := mem_generate hs
  obtain ⟨hle, hw30, hend, hmod⟩ := mem_slotLoop hmem
  have hr := round_local_mod tz st
  simp only [getMinutes, getSeconds, localMs] at hr ⊢
  omega

/-- Witness for C4 at the first slot of the concrete example. -/
theorem slot_width_and_alignment_witness :
    ((1765877400000 : Int) - 1765875600000 = 1800000) ∧
    (getMinutes 0 1765875600000 = 0 ∨ getMinutes 0 1765875600000 = 30) ∧
    getSeconds 0 1765875600000 = 0 :=
  slot_width_and_alignment 0 [⟨"2025-12-16T09:00:00Z", "2025-12-16T10:15:00Z"⟩]
    "2025-12-16" ⟨1765875600000, 1765877400000⟩
    (by rw [gen_ex]; exact List.mem_cons_self _ _)

/-- Membership in the date-key fold: a key is collected exactly when it is
already in the accumulator or is the host-local date of some parsed window
start of the remaining list. -/
theorem mem_dates_foldl (tz : Int) : ∀ (l : List AvailabilitySlot) (acc : List String)
    (d : String),
    (d ∈ List.foldl (addDateKey tz) acc l) ↔
      (d ∈ acc ∨ ∃ w ∈ l, ∃ t : Int, jsDate tz w.start = some t ∧ formatYMD tz t = d) := by
  intro l
  induction l with
  | nil =>
      intro acc d
      simp
  | cons b l ih =>
      intro acc d
      rw [List.foldl_cons, ih]
      rcases hb : jsDate tz b.start with _ | t
      · simp only [addDateKey, hb]
        constructor
        · rintro (hd | ⟨w, hw, hp⟩)
          · exact Or.inl hd
          · exact Or.inr ⟨w, List.mem_cons_of_mem b hw, hp⟩
        · rintro (hd | ⟨w, hw, t2, ht2, hf⟩)
          · exact Or.inl hd
          · rcases List.mem_cons.mp hw with rfl | hw
            · rw [hb] at ht2; simp at ht2
            · exact Or.inr ⟨w, hw, t2, ht2, hf⟩
      · simp only [addDateKey, hb]
        by_cases hc : acc.contains (formatYMD tz t) = true
        · rw [if_pos hc]
          have hmem : formatYMD tz t ∈ acc := List.elem_iff.mp hc
          constructor
          · rintro (hd | ⟨w, hw, hp⟩)
            · exact Or.inl hd
            · exact Or.inr ⟨w, List.mem_cons_of_mem b hw, hp⟩
          · rintro (hd | ⟨w, hw, t2, ht2, hf⟩)
            · exact Or.inl hd
            · rcases List.mem_cons.mp hw with rfl | hw
              · rw [hb] at ht2
                obtain rfl : t = t2 := Option.some.inj ht2
                exact Or.inl (hf ▸ hmem)
              · exact Or.inr ⟨w, hw, t2, ht2, hf⟩
        · rw [if_neg hc]
          constructor
          · rintro (hd | ⟨w, hw, hp⟩)
            · rcases List.mem_append.mp hd with hd | hd
              · exact Or.inl hd
              · exact Or.inr ⟨b, List.mem_cons_self b l, t, hb,
                  (List.mem_singleton.mp hd).symm⟩
            · exact Or.inr ⟨w, List.mem_cons_of_mem b hw, hp⟩
          · rintro (hd | ⟨w, hw, t2, ht2, hf⟩)
            · exact Or.inl (List.mem_append.mpr (Or.inl hd))
            · rcases List.mem_cons.mp hw with rfl | hw
              · rw [hb] at ht2
                obtain rfl : t = t2 := Option.some.inj ht2
                subst hf
                exact Or.inl (List.mem_append.mpr (Or.inr (List.mem_singleton.mpr rfl)))
              · exact Or.inr ⟨w, hw, t2, ht2, hf⟩

/-- C5 counterexample: the result set is keyed by the host-local calendar
date of the start instant, not by the wall-clock date at the offset embedded
in the string. For the window starting 2025-12-16T23:00:00-05:00 (an instant
of 2025-12-17T04:00:00Z) in a UTC host, the embedded wall-clock date
2025-12-16 is not in the result. -/
theorem dates_membership_counterexample :
    ¬ (("2025-12-16" ∈ getDatesWithAvailability 0
        [⟨"2025-12-16T23:00:00-05:00", "2025-12-17T01:00:00-05:00"⟩]) ↔
      ∃ w ∈ [(⟨"2025-12-16T23:00:00-05:00", "2025-12-17T01:00:00-05:00"⟩ :
          AvailabilitySlot)],
        embeddedDateKey w.start = some "2025-12-16") := by
  decide

/-- C5 (amended): a yyyy-MM-dd key belongs to getDatesWithAvailability iff at
least one window start parses to an instant whose calendar date, formatted in
the host timezone, is that key. -/
theorem dates_membership (tz : Int) (av : List AvailabilitySlot) (d : String) :
    d ∈ getDatesWithAvailability tz av ↔
      ∃ w ∈ av, ∃ t : Int, jsDate tz w.start = some t ∧ formatYMD tz t = d := by
  rw [getDatesWithAvailability, mem_dates_foldl]
  simp

/-- Witness for C5 (amended) at a concrete window list. -/
theorem dates_membership_witness :
    ("2025-12-16" ∈ getDatesWithAvailability 0
        [⟨"2025-12-16T09:00:00Z", "2025-12-16T17:00:00Z"⟩]) ↔
      ∃ w ∈ [(⟨"2025-12-16T09:00:00Z", "2025-12-16T17:00:00Z"⟩ : AvailabilitySlot)],
        ∃ t : Int, jsDate 0 w.start = some t ∧ formatYMD 0 t = "2025-12-16" :=
  dates_membership 0 [⟨"2025-12-16T09:00:00Z", "2025-12-16T17:00:00Z"⟩] "2025-12-16"

/-- C6 counterexample: on the fractional offset +05:30 the code keeps the
zero-padded hour capture, so the claimed rendering UTC+5:30 is not
produced. -/
theorem parse_offset_fractional_counterexample :
    ¬ parseOffsetFromTimestamp "2025-12-16T09:00:00+05:30" = "UTC+5:30" := by
  decide

/-- C6 (amended): the literal parsing table, with the fractional-offset case
rendering the captured sign and zero-padded hour: UTC+05:30. -/
theorem parse_offset_literal_table :
    parseOffsetFromTimestamp "2025-12-16T09:00:00Z" = "UTC+0" ∧
    parseOffsetFromTimestamp "2025-12-16T09:00:00-05:00" = "UTC-5" ∧
    parseOffsetFromTimestamp "2025-12-16T09:00:00+05:30" = "UTC+05:30" := by
  decide

/-- C8: the selector is shown exactly when the two derived display strings
differ, and in particular two timestamps denoting the same instant with
different offset suffixes yield true. -/
theorem selector_iff_offsets_differ :
    (∀ u o : String, shouldShowTimezoneSelector u o = true ↔
      parseOffsetFromTimestamp u ≠ parseOffsetFromTimestamp o) ∧
    shouldShowTimezoneSelector "2025-12-16T09:00:00-05:00" "2025-12-16T14:00:00Z" = true := by
  constructor
  · intro u o
    simp [shouldShowTimezoneSelector]
  · decide

/-- Witness for C8 at a concrete pair of timestamps. -/
theorem selector_iff_offsets_differ_witness :
    shouldShowTimezoneSelector "2025-12-16T09:00:00Z" "2025-12-16T09:00:00Z" = true ↔
      parseOffsetFromTimestamp "2025-12-16T09:00:00Z" ≠
        parseOffsetFromTimestamp "2025-12-16T09:00:00Z" :=
  selector_iff_offsets_differ.1 "2025-12-16T09:00:00Z" "2025-12-16T09:00:00Z"

/-- C9: the degenerate inputs are total and never signal failure: an empty
date-key yields an empty slot list, an empty windows list yields an empty
date set, and a timestamp with neither Z suffix nor trailing offset yields
the defaults UTC+0 and UTC. -/
theorem degenerate_inputs_total (tz : Int) (av : List AvailabilitySlot) (s fb : String) :
    generateThirtyMinuteSlots tz av "" = [] ∧
    getDatesWithAvailability tz [] = [] ∧
    (jsEndsWith s "Z" = false → offsetTailMatch s = none →
      parseOffsetFromTimestamp s = "UTC+0" ∧ getTimezoneFromOffset s fb = "UTC") := by
  refine ⟨rfl, rfl, fun h1 h2 => ⟨?_, ?_⟩⟩
  · rw [parseOffsetFromTimestamp, if_neg (by simp [h1]), h2]
  · rw [getTimezoneFromOffset, if_neg (by simp [h1]), h2]

/-- Witness for C9 on a concrete suffix-free timestamp. -/
theorem degenerate_inputs_total_witness :
    parseOffsetFromTimestamp "2025-12-16T09:00:00" = "UTC+0" ∧
    getTimezoneFromOffset "2025-12-16T09:00:00" "Asia/Kolkata" = "UTC" :=
  (degenerate_inputs_total 0 [] "2025-12-16T09:00:00" "Asia/Kolkata").2.2
    (by decide) (by decide)

/-- The decimal digit characters: they pass the digit test, decode back to
their value, are not the letter Z, and equal the character 0 exactly for the
value 0. -/
theorem digitChar_props : ∀ n : Nat, n < 10 →
    (Nat.digitChar n).isDigit = true ∧ ((Nat.digitChar n).toNat - 48 = n) ∧
    Nat.digitChar n ≠ 'Z' ∧ (Nat.digitChar n = '0' ↔ n = 0) := by
  decide

/-- The reversed character sequence of a string carrying an explicit offset
suffix. -/
theorem offsetSuffix_data_reverse (p : String) (pos : Bool) (hh mm : Nat) :
    (p ++ offsetSuffix pos hh mm).data.reverse =
      Nat.digitChar (mm % 10) :: Nat.digitChar (mm / 10) :: ':' ::
      Nat.digitChar (hh % 10) :: Nat.digitChar (hh / 10) ::
      (if pos then '+' else '-') :: p.data.reverse := by
  have hd : (p ++ offsetSuffix pos hh mm).data = p.data ++ (offsetSuffix pos hh mm).data := rfl
  rw [hd]
  have hsd : (offsetSuffix pos hh mm).data = [if pos then '+' else '-',
    Nat.digitChar (hh / 10), Nat.digitChar (hh % 10), ':',
    Nat.digitChar (mm / 10), Nat.digitChar (mm % 10)] := rfl
  rw [hsd, List.reverse_append]
  rfl

/-- A timestamp carrying an explicit offset suffix does not end in Z. -/
theorem jsEndsWith_suffix_not_z (p : String) (pos : Bool) (hh mm : Nat) :
    jsEndsWith (p ++ offsetSuffix pos hh mm) "Z" = false := by
  rw [jsEndsWith, offsetSuffix_data_reverse]
  show List.isPrefixOf ['Z'] _ = false
  simp only [List.isPrefixOf, Bool.and_true]
  rw [beq_eq_false_iff_ne]
  exact Ne.symm ((digitChar_props (mm % 10) (by omega)).2.2.1)

/-- The offset regex matches a timestamp carrying an explicit offset suffix
and captures its sign and digit characters. -/
theorem offsetTailMatch_suffix (p : String) (pos : Bool) (hh mm : Nat)
    (hhh : hh ≤ 99) (hmm : mm ≤ 99) :
    offsetTailMatch (p ++ offsetSuffix pos hh mm) =
      some (if pos then '+' else '-', Nat.digitChar (hh / 10), Nat.digitChar (hh % 10),
        Nat.digitChar (mm / 10), Nat.digitChar (mm % 10)) := by
  simp only [offsetTailMatch, offsetSuffix_data_reverse]
  rw [if_pos ⟨trivial, by cases pos <;> simp, (digitChar_props _ (by omega)).1,
    (digitChar_props _ (by omega)).1, (digitChar_props _ (by omega)).1,
    (digitChar_props _ (by omega)).1⟩]

/-- Reduction of getTimezoneFromOffset on a successful regex match. -/
theorem getTimezoneFromOffset_some (s fb : String) (sg h1 h2 m1 m2 : Char)
    (hz : jsEndsWith s "Z" = false)
    (hm : offsetTailMatch s = some (sg, h1, h2, m1, m2)) :
    getTimezoneFromOffset s fb =
      (if m1 = '0' ∧ m2 = '0' then
        "Etc/GMT" ++ (if sg = '+' then "-" else "+") ++
          toString (10 * (h1.toNat - 48) + (h2.toNat - 48))
      else fb) := by
  rw [getTimezoneFromOffset, if_neg (by simp [hz]), hm]

/-- C7: getTimezoneFromOffset maps every Z-suffixed timestamp to UTC; every
timestamp with an explicit whole-hour offset (minutes 00) to the Etc/GMT
identifier with the sign inverted relative to the timestamp's offset; and
every timestamp with an explicit offset whose minutes are nonzero to the
caller-supplied fallback unchanged. -/
theorem synthetic_timezone_cases :
    (∀ s fb : String, jsEndsWith s "Z" = true → getTimezoneFromOffset s fb = "UTC") ∧
    (∀ (p fb : String) (pos : Bool) (hh mm : Nat), hh ≤ 99 → mm ≤ 99 →
      (mm = 0 → getTimezoneFromOffset (p ++ offsetSuffix pos hh mm) fb =
        "Etc/GMT" ++ (if pos then "-" else "+") ++ toString hh) ∧
      (mm ≠ 0 → getTimezoneFromOffset (p ++ offsetSuffix pos hh mm) fb = fb)) := by
  constructor
  · intro s fb hz
    rw [getTimezoneFromOffset, if_pos hz]
  · intro p fb pos hh mm hhh hmm
    have hz := jsEndsWith_suffix_not_z p pos hh mm
    have hmatch := offsetTailMatch_suffix p pos hh mm hhh hmm
    have hred := getTimezoneFromOffset_some (p ++ offsetSuffix pos hh mm) fb _ _ _ _ _ hz hmatch
    constructor
    · intro h0
      subst h0
      rw [hred, if_pos (by decide)]
      have e1 : (Nat.digitChar (hh / 10)).toNat - 48 = hh / 10 :=
        (digitChar_props _ (by omega)).2.1
      have e2 : (Nat.digitChar (hh % 10)).toNat - 48 = hh % 10 :=
        (digitChar_props _ (by omega)).2.1
      rw [e1, e2]
      have e3 : 10 * (hh / 10) + hh % 10 = hh := by omega
      rw [e3]
      cases pos <;> simp
    · intro hne
      rw [hred, if_neg ?hcond]
      case hcond =>
        rintro ⟨e1, e2⟩
        have q1 := (digitChar_props (mm / 10) (by omega)).2.2.2.mp e1
        have q2 := (digitChar_props (mm % 10) (by omega)).2.2.2.mp e2
        omega

/-- Witness for C7 on the three concrete shapes: a Z suffix, the whole-hour
offset -05:00 and the fractional offset +05:30. -/
theorem synthetic_timezone_cases_witness :
    getTimezoneFromOffset "2025-12-16T09:00:00Z" "UTC" = "UTC" ∧
    getTimezoneFromOffset ("2025-12-16T09:00:00" ++ offsetSuffix false 5 0) "UTC" =
      "Etc/GMT" ++ (if false then "-" else "+") ++ toString 5 ∧
    getTimezoneFromOffset ("2025-12-16T09:00:00" ++ offsetSuffix true 5 30) "Asia/Kolkata" =
      "Asia/Kolkata" :=
  ⟨synthetic_timezone_cases.1 "2025-12-16T09:00:00Z" "UTC" (by decide),
    (synthetic_timezone_cases.2 "2025-12-16T09:00:00" "UTC" false 5 0
      (by decide) (by decide)).1 rfl,
    (synthetic_timezone_cases.2 "2025-12-16T09:00:00" "Asia/Kolkata" true 5 30
      (by decide) (by decide)).2 (by decide)⟩

end Booking
